import Mathlib

/-!
Verification development for the `lead-gen-system` repository.

Each section shallowly embeds one Python module that the claims refer to:

* `analysis/website_checker.py` — URL normalisation and the 0–100 website
  quality score;
* `scrapers/shopify_lead_scorer.py` — the Shopify lead scoring formula and
  the score-sorted pipeline output;
* `scripts/python/scrapers/yc_scraper.py` — the YC company scoring formula
  and the sort-and-truncate tail of `run`;
* `scripts/python/scrapers/justdial_enriched_scraper.py` — the list/detail
  metadata merge and the paginated `run` loop;
* `scripts/python/utils/merge_all_leads.py` and `utils/merge_datasets.py` —
  the CSV merge/deduplication steps.

Network and DOM effects are modelled as explicit inputs (oracles): a check
whose answer comes from the outside world becomes a parameter holding that
answer, and the surrounding pure control flow is translated literally.
Python `float` load times are modelled as `ℚ`; machine behaviour of floats
plays no role in any claim.  Python strings are sequences of code points, so
string primitives (`strip`, `startswith`, `lower`, slicing, membership) are
modelled by structural recursion over `String.data`, the underlying character
list.  Python dictionaries with dynamic key sets are modelled as association
lists of `PyVal` (string or bool) values, with `dget`/`dset` mirroring
`d.get(k)` / `d[k] = v`.
-/

namespace LeadGen

/-! ### Python string primitives, modelled over `String.data` -/

/-- Python `str.strip()`: remove leading and trailing whitespace. -/
def pyStrip (s : String) : String :=
  ⟨((s.data.dropWhile Char.isWhitespace).reverse.dropWhile Char.isWhitespace).reverse⟩

/-- Python `str.startswith(p)`. -/
def pyStartsWith (s p : String) : Bool :=
  p.data.isPrefixOf s.data

/-- Python slicing `s[n:]` (by code points). -/
def pyDrop (s : String) (n : Nat) : String :=
  ⟨s.data.drop n⟩

/-- Longest prefix of `s` whose characters satisfy `p` (used to model the
netloc/path split of `urllib.parse.urlparse`). -/
def pyTakeWhile (s : String) (p : Char → Bool) : String :=
  ⟨s.data.takeWhile p⟩

/-- Python `c in s` for a single character `c`. -/
def pyHasChar (s : String) (c : Char) : Bool :=
  s.data.contains c

/-- Python `str.lower()` (ASCII letters; the scraped names are ASCII). -/
def pyLower (s : String) : String :=
  ⟨s.data.map Char.toLower⟩

/-! ## `analysis/website_checker.py` -/

/-- `SCORE_WEIGHTS` dictionary (website_checker.py lines 18–23). -/
def SCORE_WEIGHTS : List (String × Nat) :=
  [("exists", 40), ("has_ssl", 30), ("fast_load", 20), ("valid_domain", 10)]

/-- Lookup in `SCORE_WEIGHTS` (`SCORE_WEIGHTS['k']`; all keys used exist). -/
def scoreWeight (k : String) : Nat :=
  ((SCORE_WEIGHTS.find? (fun p => decide (p.1 = k))).map (fun p => p.2)).getD 0

/-- `normalize_url` (website_checker.py lines 26–44).  `none` models Python
`None`; the input is `Option String` because callers pass `None` or a string;
`if not url` is true for `None` and for the empty string. -/
def normalize_url (url : Option String) : Option String :=
  match url with
  | none => none
  | some u =>
    if u = "" then none
    else
      let t := pyStrip u
      if t = "" ∨ t = "N/A" ∨ t = "n/a" ∨ t = "None" ∨ t = "-" then none
      else if pyStartsWith t "http://" || pyStartsWith t "https://" then some t
      else some ("http://" ++ t)

/-- `check_ssl_certificate` (lines 68–78): `urlparse(url).scheme == 'https'`.
For the strings reaching it, `urlparse` reports scheme `https` exactly when
the text before the first `:` is `https`, i.e. when the URL starts with
`"https:"`. -/
def check_ssl_certificate (url : String) : Bool :=
  pyStartsWith url "https:"

/-- The text after the `http://`/`https://` prefix, used to model
`urlparse`'s netloc/path split on the URLs produced by `normalize_url`. -/
def urlAfterScheme (url : String) : String :=
  if pyStartsWith url "http://" then pyDrop url 7
  else if pyStartsWith url "https://" then pyDrop url 8
  else url

/-- `check_domain_validity` (lines 81–105).  `domain = parsed.netloc or
parsed.path`: for a URL with a `//` authority the netloc is the text up to the
first `/`, `?` or `#`; when that is empty the path (up to `?`/`#`) is used;
a string without a scheme prefix is all path. -/
def check_domain_validity (url : String) : Bool :=
  let hasScheme := pyStartsWith url "http://" || pyStartsWith url "https://"
  let rest := urlAfterScheme url
  let netloc :=
    if hasScheme then pyTakeWhile rest (fun c => c != '/' && c != '?' && c != '#') else ""
  let path :=
    if hasScheme then pyTakeWhile (pyDrop rest netloc.length) (fun c => c != '?' && c != '#')
    else pyTakeWhile url (fun c => c != '?' && c != '#')
  let domain := if netloc ≠ "" then netloc else path
  if domain = "" ∨ domain.length < 4 then false
  else if !(pyHasChar domain '.') then false
  else if pyHasChar domain '@' || pyHasChar domain ' ' || pyHasChar domain '<' || pyHasChar domain '>' then false
  else true

/-- Environment for `calculate_website_score`: the outcome of the one network
call `check_website_exists(normalized_url)` (its success flag and measured
load time, a Python float modelled as `ℚ`) and the wall clock reading used
for `checked_at`. -/
structure WebEnv where
  net_ok : Bool
  net_load_time : ℚ
  now : String

/-- The result dict built by `calculate_website_score` (lines 121–131): the
nine keys `url, score, exists, has_ssl, fast_load, valid_domain, load_time,
checked_at, error`.  `exists` is a Lean keyword, so the field is named
`site_exists`. -/
structure WebsiteResult where
  url : Option String
  score : Nat
  site_exists : Bool
  has_ssl : Bool
  fast_load : Bool
  valid_domain : Bool
  load_time : ℚ
  checked_at : String
  error : Option String
deriving Repr, DecidableEq

/-- `round(x, 2)` on the modelled load time (half-way cases are immaterial to
every claim). -/
def round2 (q : ℚ) : ℚ := (round (q * 100) : ℤ) / 100

/-- `calculate_website_score` (lines 108–169), with the network call answered
by `env`.  The `try` body never raises in our model, since every `check_*`
helper is failure-proof, so the `except` branch is not reachable. -/
def calculate_website_score (env : WebEnv) (url : Option String) : WebsiteResult :=
  let result : WebsiteResult :=
    { url := url, score := 0, site_exists := false, has_ssl := false,
      fast_load := false, valid_domain := false, load_time := 0,
      checked_at := env.now, error := none }
  match normalize_url url with
  | none => { result with error := some "Invalid or empty URL" }
  | some nu =>
    let result := { result with url := some nu }
    let result :=
      if check_domain_validity nu then
        { result with valid_domain := true, score := result.score + scoreWeight "valid_domain" }
      else result
    let result :=
      { result with site_exists := env.net_ok, load_time := round2 env.net_load_time }
    if env.net_ok then
      let result := { result with score := result.score + scoreWeight "exists" }
      let result :=
        if env.net_load_time < 3 then
          { result with fast_load := true, score := result.score + scoreWeight "fast_load" }
        else result
      if check_ssl_certificate nu then
        { result with has_ssl := true, score := result.score + scoreWeight "has_ssl" }
      else result
    else result


/-! ## `scrapers/shopify_lead_scorer.py` -/

/-- The metadata fields that `ShopifyLeadScorer.score_leads` reads (the claim
quantifies over dicts containing these keys; `theme_name` is additionally
read, for the weakness message, when `is_default_theme` is set). -/
structure ShopifyMeta where
  is_myshopify_domain : Bool
  has_about_page : Bool
  has_story_page : Bool
  about_page_word_count : Nat
  story_page_word_count : Nat
  is_default_theme : Bool
  theme_name : String
  social_links : List String
deriving Repr, DecidableEq

/-- The dict returned by `score_leads`. -/
structure LeadScore where
  lead_score : Nat
  lead_quality : String
  weaknesses : List String
  weakness_count : Nat
deriving Repr, DecidableEq

/-- `ShopifyLeadScorer.score_leads` (shopify_lead_scorer.py lines 351–414),
translated statement by statement: `score` accumulates, `weaknesses` appends
one message per contributing condition, quality is classified by threshold. -/
def score_leads (m : ShopifyMeta) : LeadScore :=
  let s0 : Nat := 0
  let w0 : List String := []
  let s1 := if m.is_myshopify_domain then s0 + 3 else s0
  let w1 :=
    if m.is_myshopify_domain then
      w0 ++ ["Using myshopify.com domain (needs custom domain)"]
    else w0
  let s2 :=
    if ¬ m.has_about_page ∧ ¬ m.has_story_page then s1 + 3
    else if m.about_page_word_count < 150 ∧ m.story_page_word_count < 150 then s1 + 2
    else s1
  let w2 :=
    if ¬ m.has_about_page ∧ ¬ m.has_story_page then
      w1 ++ ["No About/Story page (needs brand storytelling)"]
    else if m.about_page_word_count < 150 ∧ m.story_page_word_count < 150 then
      w1 ++ ["Weak About page (<150 words)"]
    else w1
  let s3 := if m.is_default_theme then s2 + 2 else s2
  let w3 :=
    if m.is_default_theme then
      w2 ++ ["Using default Shopify theme (" ++ m.theme_name ++ ")"]
    else w2
  let social_count := m.social_links.length
  let s4 :=
    if social_count = 0 then s3 + 3
    else if social_count ≤ 2 then s3 + 2
    else s3
  let w4 :=
    if social_count = 0 then w3 ++ ["No social media links (needs marketing setup)"]
    else if social_count ≤ 2 then w3 ++ ["Weak social media presence (1-2 platforms)"]
    else w3
  let lead_quality :=
    if s4 ≥ 8 then "hot"
    else if s4 ≥ 5 then "warm"
    else if s4 ≥ 3 then "cold"
    else "poor"
  { lead_score := s4, lead_quality := lead_quality,
    weaknesses := w4, weakness_count := w4.length }

/-- `run_pipeline` (lines 437–469) after metadata extraction: each discovered
store's metadata is scored and the resulting frame is sorted by `lead_score`
descending (`df.sort_values('lead_score', ascending=False)`).  The
network-dependent discovery and extraction steps are the input list. -/
def run_pipeline_order (stores : List ShopifyMeta) : List (ShopifyMeta × LeadScore) :=
  List.insertionSort (fun a b => b.2.lead_score ≤ a.2.lead_score)
    (stores.map (fun m => (m, score_leads m)))

/-! ## `scripts/python/scrapers/yc_scraper.py` -/

/-- Python truthiness of `d.get(k)` for a string-valued field: `None` and the
empty string are falsy. -/
def truthyStr : Option String → Bool
  | none => false
  | some s => s ≠ ""

/-- The metadata fields that `YCStartupScraper.score_company` reads.
`team_size` holds the result of `int(metadata.get('team_size') or 0)`:
`some t` when the raw value is truthy and parses to the integer `t`, and
`none` when the raw value is missing/falsy (the code then computes `ts = 0`)
or unparseable (the exception is swallowed) — in both `none` cases the code
adds nothing, exactly as it does at `ts = 0`. -/
structure YCMeta where
  website : Option String
  description : String
  logo : Option String
  video : Option String
  github : Option String
  team_size : Option Int
  founders : List String
deriving Repr, DecidableEq

/-- `YCStartupScraper.score_company` (yc_scraper.py lines 594–647), translated
statement by statement.  `if ts and ts < 5` adds the team-size point for any
nonzero parsed integer below 5. -/
def score_company (m : YCMeta) : Nat :=
  let s0 : Nat := 0
  let s1 := if ¬ truthyStr m.website then s0 + 3 else s0
  let s2 := if m.description.length < 150 then s1 + 2 else s1
  let s3 := if ¬ truthyStr m.logo then s2 + 2 else s2
  let s4 := if ¬ truthyStr m.video then s3 + 2 else s3
  let s5 := if ¬ truthyStr m.github then s4 + 1 else s4
  let s6 :=
    match m.team_size with
    | some t => if t ≠ 0 ∧ t < 5 then s5 + 1 else s5
    | none => s5
  let s7 := if m.founders.isEmpty then s6 + 1 else s6
  s7

/-- The scoring formula exactly as the claim words it, for comparison with
`score_company`: the team-size point is claimed to require an integer
*between 1 and 4*. -/
def claimedYCScoreSpec (m : YCMeta) : Nat :=
  (if ¬ truthyStr m.website then 3 else 0)
  + (if m.description.length < 150 then 2 else 0)
  + (if ¬ truthyStr m.logo then 2 else 0)
  + (if ¬ truthyStr m.video then 2 else 0)
  + (if ¬ truthyStr m.github then 1 else 0)
  + (match m.team_size with
     | some t => if 1 ≤ t ∧ t ≤ 4 then 1 else 0
     | none => 0)
  + (if m.founders.isEmpty then 1 else 0)

/-- The tail of `YCStartupScraper.run` (yc_scraper.py lines 772–785): each
company is scored, the list is sorted by score descending
(`scored_companies.sort(key=lambda x: x['score'], reverse=True)`, a stable
descending sort), and truncated to `max_results`. -/
def yc_scored_sorted (companies : List YCMeta) : List (YCMeta × Nat) :=
  List.insertionSort (fun a b => b.2 ≤ a.2)
    (companies.map (fun c => (c, score_company c)))

/-- `self.results = scored_companies[:max_results]`. -/
def yc_run_results (companies : List YCMeta) (max_results : Nat) : List (YCMeta × Nat) :=
  (yc_scored_sorted companies).take max_results


/-! ## `scripts/python/scrapers/justdial_enriched_scraper.py` -/

/-- A Python value stored in a scraped-metadata dict: a string or a bool
(the only value types these dicts hold). -/
inductive PyVal where
  | str (s : String)
  | bool (b : Bool)
deriving Repr, DecidableEq

/-- Python truthiness of a `PyVal` (`''` and `False` are falsy). -/
def PyVal.truthy : PyVal → Bool
  | .str s => s ≠ ""
  | .bool b => b

/-- A Python dict with string keys, as an association list in insertion
order; the dicts built by the scraper have pairwise-distinct keys. -/
def PyDict := List (String × PyVal)
deriving Repr, DecidableEq

/-- `d.get(k)`: the value at the first occurrence of `k`, else `None`. -/
def dget : PyDict → String → Option PyVal
  | [], _ => none
  | p :: rest, k => if p.1 = k then some p.2 else dget rest k

/-- `d[k] = v`: replace the value at `k` in place, appending when absent. -/
def dset : PyDict → String → PyVal → PyDict
  | [], k, v => [(k, v)]
  | p :: rest, k, v => if p.1 = k then (k, v) :: rest else p :: dset rest k v

/-- Truthiness of `d.get(k)` (`None` is falsy). -/
def dtruthy (d : PyDict) (k : String) : Bool :=
  match dget d k with
  | none => false
  | some v => v.truthy

/-- The dict returned by `extract_metadata_from_list` (lines 127–185): the
ten initialised keys; the selector loops fill `name`, `address`, `rating`,
`reviews` and `cuisines` with whatever text the DOM yields (arbitrary
strings here, `''` when nothing matches), while `phone`, `email`,
`website`, `pricing` stay `''` and `website_present` stays `False`. -/
def extract_metadata_from_list_result
    (name address rating reviews cuisines : String) : PyDict :=
  [("name", .str name), ("address", .str address), ("phone", .str ""),
   ("email", .str ""), ("website_present", .bool false), ("website", .str ""),
   ("cuisines", .str cuisines), ("rating", .str rating),
   ("reviews", .str reviews), ("pricing", .str "")]

/-- The dict returned by `extract_detail_page` (lines 209–260): its thirteen
initialised keys, each filled (or not) from the detail DOM. -/
def extract_detail_page_result (phone email : String) (website_present : Bool)
    (website cuisines rating reviews pricing instagram facebook
     twitter linkedin youtube : String) : PyDict :=
  [("phone", .str phone), ("email", .str email),
   ("website_present", .bool website_present), ("website", .str website),
   ("cuisines", .str cuisines), ("rating", .str rating),
   ("reviews", .str reviews), ("pricing", .str pricing),
   ("instagram", .str instagram), ("facebook", .str facebook),
   ("twitter", .str twitter), ("linkedin", .str linkedin),
   ("youtube", .str youtube)]

/-- One step of the merge loop in `run` (lines 536–539):
`if v and (not merged.get(k)): merged[k] = v`. -/
def mergeStep (m : PyDict) (kv : String × PyVal) : PyDict :=
  if kv.2.truthy && !(dtruthy m kv.1) then dset m kv.1 kv.2 else m

/-- The list+detail merge of `run` (lines 534–541): start from a copy of the
list metadata, fold the detail items through `mergeStep`, then
`merged['website_present'] = bool(merged.get('website'))`. -/
def mergeListDetail (list_meta detail_meta : PyDict) : PyDict :=
  let merged := detail_meta.foldl mergeStep list_meta
  dset merged "website_present" (.bool (dtruthy merged "website"))

/-- The list-page values scraped for one listing element. -/
structure JDListArgs where
  name : String
  address : String
  rating : String
  reviews : String
  cuisines : String
deriving Repr, DecidableEq

/-- The detail-page values scraped for one listing. -/
structure JDDetailArgs where
  phone : String
  email : String
  website_present : Bool
  website : String
  cuisines : String
  rating : String
  reviews : String
  pricing : String
  instagram : String
  facebook : String
  twitter : String
  linkedin : String
  youtube : String
deriving Repr, DecidableEq

/-- One snapshot entry of the batch built in `run` (lines 499–506): the
pre-extracted list metadata, and the detail-page metadata when a detail URL
existed and its fetch succeeded (`none` models `detail_meta = {}`). -/
structure JDItem where
  list_args : JDListArgs
  detail : Option JDDetailArgs
deriving Repr, DecidableEq

/-- The `list_meta` dict of a batch item. -/
def JDItem.listMeta (it : JDItem) : PyDict :=
  extract_metadata_from_list_result it.list_args.name it.list_args.address
    it.list_args.rating it.list_args.reviews it.list_args.cuisines

/-- The `detail_meta` dict of a batch item (`{}` when no detail page). -/
def JDItem.detailMeta (it : JDItem) : PyDict :=
  match it.detail with
  | some d =>
      extract_detail_page_result d.phone d.email d.website_present d.website
        d.cuisines d.rating d.reviews d.pricing d.instagram d.facebook
        d.twitter d.linkedin d.youtube
  | none => []

/-- What the outside world feeds each outer iteration of `run`: the batch of
listing elements the page scan finds at that attempt, and whether
`load_more()` succeeds there (consulted only when no new name was added). -/
structure JDEnv where
  batch : Nat → List JDItem
  load_more : Nat → Bool
  initial_fetch_ok : Bool

/-- The mutable state of `run`: `self.results` and `seen_names` (an
insertion-ordered set). -/
structure JDState where
  results : List PyDict
  seen_names : List String
deriving Repr, DecidableEq

/-- `norm = list_meta['name'].strip().lower()` (line 514). -/
def normName (s : String) : String := pyLower (pyStrip s)

/-- The inner `for item in batch` loop of `run` (lines 508–545): stop when
the target is reached, skip items without a name or with an already-seen
normalised name, otherwise append the merged record and remember the name. -/
def processBatch (target : Nat) : List JDItem → JDState → JDState
  | [], s => s
  | it :: rest, s =>
    if s.results.length ≥ target then s
    else if !(dtruthy it.listMeta "name") then processBatch target rest s
    else
      let norm := normName it.list_args.name
      if norm ∈ s.seen_names then processBatch target rest s
      else
        processBatch target rest
          { results := s.results ++ [mergeListDetail it.listMeta it.detailMeta],
            seen_names := s.seen_names ++ [norm] }

/-- The outer `while len(self.results) < target and attempts < max_attempts`
loop of `run` (lines 490–553), structured by the remaining fuel
`max_attempts - attempts`; returns the final state and the number of
iterations executed.  After a batch: stop when the target is reached; when
no new unique name was added, stop unless `load_more()` succeeds; otherwise
continue (the progress-case `load_more()` call only affects the next page
scan, which the environment already indexes by attempt). -/
def runLoop (env : JDEnv) (target : Nat) : Nat → Nat → JDState → JDState × Nat
  | 0, _, s => (s, 0)
  | fuel + 1, attempts, s =>
    if s.results.length < target then
      let s' := processBatch target (env.batch attempts) s
      if s'.results.length ≥ target then (s', 1)
      else if s'.seen_names.length = s.seen_names.length then
        if env.load_more attempts then
          let r := runLoop env target fuel (attempts + 1) s'
          (r.1, r.2 + 1)
        else (s', 1)
      else
        let r := runLoop env target fuel (attempts + 1) s'
        (r.1, r.2 + 1)
    else (s, 0)

/-- `JustDialEnrichedScraper.run(url, target)`: empty result when the
initial `fetch_page` fails, otherwise the loop with `max_attempts = 20`
from empty state.  Returns the result list and the number of outer-loop
iterations executed. -/
def JD_run (env : JDEnv) (target : Nat) : List PyDict × Nat :=
  if !env.initial_fetch_ok then ([], 0)
  else
    let r := runLoop env target 20 0 ⟨[], []⟩
    (r.1.results, r.2)

/-- The `name` field of a merged record (a string in every record built). -/
def recName (d : PyDict) : String :=
  match dget d "name" with
  | some (.str s) => s
  | _ => ""


/-! ## `scripts/python/utils/merge_all_leads.py` and `utils/merge_datasets.py`

A pandas DataFrame is modelled as its column list and its row list; a row
maps a column name to its cell, `none` standing for NaN (all cells that the
merge/dedup logic consults are strings).  `df.empty` is true when either
axis has length zero.  `pd.concat` appends rows (and unions columns in
order).  `sort_values` is a sort by the stated keys with NaN placed last
(`na_position='last'`); only the fact that sorting permutes the rows
matters to the claims, never the tie order.  `drop_duplicates(keep='first')`
keeps the first row of each key.  The `_ensure_columns`, boolean/numeric
cell conversions and the `name_quality` helper-column add/drop in
`load_and_map_files` change no row multiplicity and touch none of the three
dedup key fields, so the dedup pipeline is modelled on the concatenated
mapped rows directly. -/

/-- A pandas row: the cell of each column, `none` for NaN. -/
def PdRow := String → Option String

/-- A pandas DataFrame. -/
structure PdFrame where
  columns : List String
  rows : List PdRow

/-- `df.empty`: an axis of length zero. -/
def PdFrame.isEmpty (d : PdFrame) : Bool :=
  d.rows.isEmpty || d.columns.isEmpty

/-- `UNIFIED_SCHEMA` (merge_all_leads.py lines 21–60). -/
def UNIFIED_SCHEMA : List String :=
  ["lead_type", "name", "source", "collected_at",
   "venture_type", "company_role", "services", "industry", "location",
   "city", "state", "country", "website", "email", "phone", "employees",
   "funding_usd", "hiring", "jobs_link", "rating", "reviews", "price_level",
   "source_url",
   "influencer_handle", "brand_account", "brand_instagram_url",
   "brand_full_name", "brand_followers", "brand_is_verified",
   "brand_is_business", "products_mentioned", "total_mentions",
   "total_engagement"]

/-- Lexicographic order on the code points of two strings (the comparison
pandas applies to string cells). -/
def charListLtB : List Char → List Char → Bool
  | [], [] => false
  | [], _ :: _ => true
  | _ :: _, [] => false
  | c :: cs, d :: ds => if c < d then true else if d < c then false else charListLtB cs ds

/-- Strict string comparison (kernel-computable). -/
def pyStrLtB (a b : String) : Bool := charListLtB a.data b.data

/-- Cell comparison with NaN sorted last (`na_position='last'`). -/
def naLastLtB : Option String → Option String → Bool
  | some x, some y => pyStrLtB x y
  | some _, none => true
  | none, _ => false

/-- Non-strict version of `naLastLtB`. -/
def naLastLeB (a b : Option String) : Bool := !(naLastLtB b a)

/-- `sort_values(by=['lead_type', 'source'])` comparison
(merge_all_leads.py line 221). -/
def mergeAllLeadsLe (a b : PdRow) : Prop :=
  (naLastLtB (a "lead_type") (b "lead_type")
    || ((a "lead_type" == b "lead_type")
        && naLastLeB (a "source") (b "source"))) = true

instance : DecidableRel mergeAllLeadsLe := fun a b => by
  unfold mergeAllLeadsLe
  infer_instance

/-- `has_website = merged['website'].notna() & (merged['website'] != '')`
(merge_all_leads.py line 223). -/
def hasWebsiteCell (r : PdRow) : Bool :=
  match r "website" with
  | some s => s ≠ ""
  | none => false

/-- `drop_duplicates(subset, keep='first')`: keep each row whose key was not
seen before. -/
def dropDupAux {κ : Type} [DecidableEq κ] (key : PdRow → κ) :
    List PdRow → List κ → List PdRow
  | [], _ => []
  | r :: rest, seen =>
    if key r ∈ seen then dropDupAux key rest seen
    else r :: dropDupAux key rest (key r :: seen)

/-- `drop_duplicates` from an empty seen-set. -/
def drop_duplicates_first {κ : Type} [DecidableEq κ] (key : PdRow → κ)
    (l : List PdRow) : List PdRow :=
  dropDupAux key l []

/-- `merge_and_deduplicate` (merge_all_leads.py lines 205–230): empty-input
short circuits, concat, sort by `['lead_type', 'source']`, deduplicate the
rows with a usable website by website keeping the first, keep every other
row. -/
def merge_and_deduplicate (business influencer : PdFrame) : PdFrame :=
  if business.isEmpty && influencer.isEmpty then ⟨UNIFIED_SCHEMA, []⟩
  else if business.isEmpty then influencer
  else if influencer.isEmpty then business
  else
    let mergedRows := business.rows ++ influencer.rows
    let sorted := List.insertionSort mergeAllLeadsLe mergedRows
    let withW := sorted.filter hasWebsiteCell
    let withoutW := sorted.filter (fun r => !(hasWebsiteCell r))
    ⟨business.columns
       ++ influencer.columns.filter (fun c => !(business.columns.contains c)),
     drop_duplicates_first (fun r => r "website") withW ++ withoutW⟩

/-- Whether `needle` occurs inside `hay` (Python `sub in s`). -/
def charListIsInfixB (needle : List Char) : List Char → Bool
  | [] => needle.isEmpty
  | c :: rest => needle.isPrefixOf (c :: rest) || charListIsInfixB needle rest

/-- `'see who works here' in s` case-insensitively, via lower-casing
(`str.contains(..., case=False)` on a pattern without regex metacharacters). -/
def pyContainsSub (s sub : String) : Bool :=
  charListIsInfixB sub.data s.data

/-- `name_quality` (merge_datasets.py lines 352–353):
`(~name.str.contains('see who works here', case=False)) & (name.str.len() > 3)`
on the NaN-filled name. -/
def name_quality (r : PdRow) : Bool :=
  let s := (r "name").getD ""
  (!(pyContainsSub (pyLower s) "see who works here")) && decide (s.length > 3)

/-- `True` sorts before `False` (`ascending=False` on the boolean
`name_quality` column). -/
def boolDescLtB (a b : Bool) : Bool := a && !b

/-- `sort_values(by=['website', 'name_quality', 'source'],
ascending=[True, False, True])` (merge_datasets.py line 359). -/
def siteSortLe (a b : PdRow) : Prop :=
  (naLastLtB (a "website") (b "website")
    || ((a "website" == b "website")
        && (boolDescLtB (name_quality a) (name_quality b)
            || ((name_quality a == name_quality b)
                && naLastLeB (a "source") (b "source"))))) = true

instance : DecidableRel siteSortLe := fun a b => by
  unfold siteSortLe
  infer_instance

/-- `sort_values(by=['phone', 'source'])` (merge_datasets.py line 368). -/
def phoneSortLe (a b : PdRow) : Prop :=
  (naLastLtB (a "phone") (b "phone")
    || ((a "phone" == b "phone")
        && naLastLeB (a "source") (b "source"))) = true

instance : DecidableRel phoneSortLe := fun a b => by
  unfold phoneSortLe
  infer_instance

/-- `sort_values(by=['name', 'city', 'source'])` (merge_datasets.py
line 376). -/
def nameCitySortLe (a b : PdRow) : Prop :=
  (naLastLtB (a "name") (b "name")
    || ((a "name" == b "name")
        && (naLastLtB (a "city") (b "city")
            || ((a "city" == b "city")
                && naLastLeB (a "source") (b "source"))))) = true

instance : DecidableRel nameCitySortLe := fun a b => by
  unfold nameCitySortLe
  infer_instance

/-- One deduplication step of `load_and_map_files` (merge_datasets.py lines
355–379): restrict to the rows whose dedup key is present (`guard`), sort
them, drop duplicate keys keeping the first, and append the remaining rows
unchanged. -/
def dedupStep {κ : Type} [DecidableEq κ] (ls : PdRow → PdRow → Prop)
    [DecidableRel ls] (guard : PdRow → Bool) (key : PdRow → κ)
    (rows : List PdRow) : List PdRow :=
  drop_duplicates_first key (List.insertionSort ls (rows.filter guard))
    ++ rows.filter (fun r => !(guard r))

/-- The three sequential dedup steps of `load_and_map_files` on the
concatenated mapped rows: by non-null website, then by non-null phone, then
by (name, city) with both non-null (merge_datasets.py lines 355–379). -/
def load_and_map_dedup (rows : List PdRow) : List PdRow :=
  dedupStep nameCitySortLe
    (fun r => (r "name").isSome && (r "city").isSome)
    (fun r => (r "name", r "city"))
    (dedupStep phoneSortLe (fun r => (r "phone").isSome) (fun r => r "phone")
      (dedupStep siteSortLe (fun r => (r "website").isSome)
        (fun r => r "website") rows))


theorem scoreWeight_exists : scoreWeight "exists" = 40 := by decide

theorem scoreWeight_has_ssl : scoreWeight "has_ssl" = 30 := by decide

theorem scoreWeight_fast_load : scoreWeight "fast_load" = 20 := by decide

theorem scoreWeight_valid_domain : scoreWeight "valid_domain" = 10 := by decide

/-- C1: the score returned by `calculate_website_score` is the fixed weighted
sum `40*exists + 30*has_ssl + 20*fast_load + 10*valid_domain` of the returned
boolean flags, hence lies in `[0, 100]`, and the `has_ssl` / `fast_load`
flags can be set only when `exists` is set. -/
theorem C1_website_score_weighted_sum (env : WebEnv) (url : Option String) :
    (calculate_website_score env url).score =
        40 * (calculate_website_score env url).site_exists.toNat
      + 30 * (calculate_website_score env url).has_ssl.toNat
      + 20 * (calculate_website_score env url).fast_load.toNat
      + 10 * (calculate_website_score env url).valid_domain.toNat
    ∧ (calculate_website_score env url).score ≤ 100
    ∧ (calculate_website_score env url).has_ssl
        = ((calculate_website_score env url).has_ssl && (calculate_website_score env url).site_exists)
    ∧ (calculate_website_score env url).fast_load
        = ((calculate_website_score env url).fast_load && (calculate_website_score env url).site_exists) := by
  unfold calculate_website_score
  cases normalize_url url with
  | none => simp
  | some nu =>
    simp only [scoreWeight_exists, scoreWeight_has_ssl, scoreWeight_fast_load,
      scoreWeight_valid_domain]
    by_cases hd : check_domain_validity nu <;>
      by_cases he : env.net_ok <;>
        by_cases hl : env.net_load_time < 3 <;>
          by_cases hs : check_ssl_certificate nu <;>
            simp [hd, he, hl, hs]

/-- C10: `normalize_url` rejects `None`, the empty string and the sentinel
strings, and whenever it rejects the input `calculate_website_score` returns
the fully-initialised result record — score `0`, all four flags `False`,
`load_time` `0`, `error = 'Invalid or empty URL'` — independently of the
network environment (no network check is consulted). -/
theorem C10_invalid_url_early_return :
    normalize_url none = none
    ∧ normalize_url (some "") = none
    ∧ normalize_url (some "N/A") = none
    ∧ normalize_url (some "n/a") = none
    ∧ normalize_url (some "None") = none
    ∧ normalize_url (some "-") = none
    ∧ ∀ (env : WebEnv) (url : Option String), normalize_url url = none →
        calculate_website_score env url =
          { url := url, score := 0, site_exists := false, has_ssl := false,
            fast_load := false, valid_domain := false, load_time := 0,
            checked_at := env.now, error := some "Invalid or empty URL" } := by
  refine ⟨rfl, by decide, by decide, by decide, by decide, by decide, ?_⟩
  intro env url h
  unfold calculate_website_score
  rw [h]

/-- Witness for C10 at the concrete sentinel input `'N/A'`. -/
theorem C10_invalid_url_early_return_witness :
    calculate_website_score ⟨true, 1, "2025-01-01"⟩ (some "N/A") =
      { url := some "N/A", score := 0, site_exists := false, has_ssl := false,
        fast_load := false, valid_domain := false, load_time := 0,
        checked_at := "2025-01-01", error := some "Invalid or empty URL" } :=
  C10_invalid_url_early_return.2.2.2.2.2.2 ⟨true, 1, "2025-01-01"⟩ (some "N/A") (by decide)


/-- C2: `score_leads` returns the fixed weighted sum (3 for a myshopify
domain; 3 for no About/Story page, else 2 when both word counts are under
150; 2 for the default theme; 3 for zero social links, else 2 for at most
two), which never exceeds 11; `weakness_count` counts the contributing
conditions; and `lead_quality` is `hot`/`warm`/`cold`/`poor` exactly on the
score ranges `≥8` / `[5,8)` / `[3,5)` / `<3`. -/
theorem C2_shopify_lead_score_formula (m : ShopifyMeta) :
    (score_leads m).lead_score =
        (if m.is_myshopify_domain then 3 else 0)
      + (if ¬ m.has_about_page ∧ ¬ m.has_story_page then 3
         else if m.about_page_word_count < 150 ∧ m.story_page_word_count < 150 then 2 else 0)
      + (if m.is_default_theme then 2 else 0)
      + (if m.social_links.length = 0 then 3
         else if m.social_links.length ≤ 2 then 2 else 0)
    ∧ (score_leads m).lead_score ≤ 11
    ∧ (score_leads m).weakness_count =
        (if m.is_myshopify_domain then 1 else 0)
      + (if ¬ m.has_about_page ∧ ¬ m.has_story_page then 1
         else if m.about_page_word_count < 150 ∧ m.story_page_word_count < 150 then 1 else 0)
      + (if m.is_default_theme then 1 else 0)
      + (if m.social_links.length = 0 then 1
         else if m.social_links.length ≤ 2 then 1 else 0)
    ∧ ((score_leads m).lead_quality = "hot" ↔ 8 ≤ (score_leads m).lead_score)
    ∧ ((score_leads m).lead_quality = "warm" ↔
        5 ≤ (score_leads m).lead_score ∧ (score_leads m).lead_score < 8)
    ∧ ((score_leads m).lead_quality = "cold" ↔
        3 ≤ (score_leads m).lead_score ∧ (score_leads m).lead_score < 5)
    ∧ ((score_leads m).lead_quality = "poor" ↔ (score_leads m).lead_score < 3) := by
  rcases m with ⟨b1, ap, sp, wc, swc, dt, tn, sl⟩
  by_cases h1 : b1 = true <;>
  by_cases h2 : ¬ ap = true ∧ ¬ sp = true <;>
  by_cases h3 : wc < 150 ∧ swc < 150 <;>
  by_cases h4 : dt = true <;>
  by_cases h5 : sl.length = 0 <;>
  by_cases h6 : sl.length ≤ 2
  all_goals simp only [score_leads, h1, h2, h3, h4, h5, h6, if_true, if_false,
    ite_true, ite_false, not_true, not_false_iff, not_false_eq_true, not_true_eq_false,
    List.nil_append, List.append_assoc, List.length_append, List.length_cons,
    List.length_nil, List.cons_append]
  all_goals refine ⟨?_, ?_, ?_, ?_, ?_, ?_, ?_⟩
  all_goals first | omega | trivial

/-- C3 counterexample: on a company whose `team_size` parses to `-1` (with
every other signal missing), `score_company` returns 12, while the claimed
formula — which awards the team-size point only for a team size *between 1
and 4* — yields 11. -/
theorem C3_yc_score_counterexample :
    score_company ⟨none, "", none, none, none, some (-1), []⟩ = 12
    ∧ claimedYCScoreSpec ⟨none, "", none, none, none, some (-1), []⟩ = 11
    ∧ score_company ⟨none, "", none, none, none, some (-1), []⟩ ≠
        claimedYCScoreSpec ⟨none, "", none, none, none, some (-1), []⟩ := by
  refine ⟨by decide, by decide, by decide⟩

/-- C3 amended: `score_company` is exactly
`3*[no website] + 2*[description < 150 chars] + 2*[no logo] + 2*[no video]
+ 1*[no github] + 1*[team_size parses to a nonzero integer less than 5]
+ 1*[no founders]`, reads no other field, never raises (it is a total
function of these fields), and never exceeds 12. -/
theorem C3_yc_score_formula_amended (m : YCMeta) :
    score_company m =
        (if ¬ truthyStr m.website then 3 else 0)
      + (if m.description.length < 150 then 2 else 0)
      + (if ¬ truthyStr m.logo then 2 else 0)
      + (if ¬ truthyStr m.video then 2 else 0)
      + (if ¬ truthyStr m.github then 1 else 0)
      + (match m.team_size with
         | some t => if t ≠ 0 ∧ t < 5 then 1 else 0
         | none => 0)
      + (if m.founders.isEmpty then 1 else 0)
    ∧ score_company m ≤ 12 := by
  rcases m with ⟨w, d, lg, v, g, ts, f⟩
  by_cases h1 : truthyStr w <;>
  by_cases h2 : d.length < 150 <;>
  by_cases h3 : truthyStr lg <;>
  by_cases h4 : truthyStr v <;>
  by_cases h5 : truthyStr g <;>
  by_cases h7 : f.isEmpty <;>
  rcases ts with _ | t
  all_goals simp only [score_company, h1, h2, h3, h4, h5, h7, not_true, not_false_iff,
    if_true, if_false, ite_true, ite_false, not_false_eq_true, not_true_eq_false,
    Bool.false_eq_true, Bool.true_eq_false]
  all_goals constructor <;> (try split_ifs) <;> first | omega | trivial


/-- C9: both scoring pipelines order their output by non-increasing lead
score: `ShopifyLeadScorer.run_pipeline` sorts the scored frame by
`lead_score` descending, and `YCStartupScraper.run` returns the
`max_results` highest-scoring companies in descending score order (the
returned prefix is sorted, is a prefix of a sort of all scored companies,
and every company it drops scores no higher than every company it keeps). -/
theorem C9_results_sorted_descending :
    (∀ stores : List ShopifyMeta,
        (run_pipeline_order stores).Pairwise
          (fun a b => b.2.lead_score ≤ a.2.lead_score))
    ∧ ∀ (companies : List YCMeta) (k : Nat),
        (yc_run_results companies k).length ≤ k
        ∧ (yc_run_results companies k).Pairwise (fun a b => b.2 ≤ a.2)
        ∧ (yc_scored_sorted companies).Perm
            (companies.map (fun c => (c, score_company c)))
        ∧ ∀ x ∈ yc_run_results companies k, ∀ y ∈ (yc_scored_sorted companies).drop k,
            y.2 ≤ x.2 := by
  constructor
  · intro stores
    have ht : IsTotal (ShopifyMeta × LeadScore)
        (fun a b => b.2.lead_score ≤ a.2.lead_score) :=
      ⟨fun a b => le_total b.2.lead_score a.2.lead_score⟩
    have htr : IsTrans (ShopifyMeta × LeadScore)
        (fun a b => b.2.lead_score ≤ a.2.lead_score) :=
      ⟨fun a b c h1 h2 => le_trans h2 h1⟩
    exact @List.sorted_insertionSort _
      (fun a b => b.2.lead_score ≤ a.2.lead_score) _ ht htr _
  · intro companies k
    have ht : IsTotal (YCMeta × Nat) (fun a b => b.2 ≤ a.2) :=
      ⟨fun a b => le_total b.2 a.2⟩
    have htr : IsTrans (YCMeta × Nat) (fun a b => b.2 ≤ a.2) :=
      ⟨fun a b c h1 h2 => le_trans h2 h1⟩
    have hsorted : (yc_scored_sorted companies).Pairwise (fun a b => b.2 ≤ a.2) := by
      unfold yc_scored_sorted
      exact @List.sorted_insertionSort _ (fun a b => b.2 ≤ a.2) _ ht htr _
    refine ⟨List.length_take_le _ _,
      List.Pairwise.sublist (List.take_sublist _ _) hsorted,
      List.perm_insertionSort _ _, ?_⟩
    have hsplit := hsorted
    rw [← List.take_append_drop k (yc_scored_sorted companies)] at hsplit
    exact fun x hx y hy => (List.pairwise_append.mp hsplit).2.2 x hx y hy

/-- Witness for C9 at a concrete two-company input: the weak-signal company
(score 11) is kept by `yc_run_results _ 1` and the strong-signal company
(score 2) is dropped, with the dropped score below the kept one. -/
theorem C9_results_sorted_descending_witness :
    (yc_run_results [⟨none, "", none, none, none, none, []⟩,
        ⟨some "x", "", some "l", some "v", some "g", none, ["f"]⟩] 1).length ≤ 1
    ∧ ((⟨some "x", "", some "l", some "v", some "g", none, ["f"]⟩, 2) : YCMeta × Nat).2
        ≤ ((⟨none, "", none, none, none, none, []⟩, 11) : YCMeta × Nat).2 :=
  ⟨(C9_results_sorted_descending.2 [⟨none, "", none, none, none, none, []⟩,
      ⟨some "x", "", some "l", some "v", some "g", none, ["f"]⟩] 1).1,
   (C9_results_sorted_descending.2 [⟨none, "", none, none, none, none, []⟩,
      ⟨some "x", "", some "l", some "v", some "g", none, ["f"]⟩] 1).2.2.2
     (⟨none, "", none, none, none, none, []⟩, 11) (by decide)
     (⟨some "x", "", some "l", some "v", some "g", none, ["f"]⟩, 2) (by decide)⟩


theorem dget_dset_self (d : PyDict) (k : String) (v : PyVal) :
    dget (dset d k v) k = some v := by
  induction d with
  | nil => simp [dset, dget]
  | cons p rest ih =>
    by_cases h : p.1 = k <;> simp [dset, dget, h, ih]

theorem dget_dset_ne (d : PyDict) (k k2 : String) (v : PyVal) (h : k2 ≠ k) :
    dget (dset d k v) k2 = dget d k2 := by
  have hkk2 : ¬ (k = k2) := fun hh => h hh.symm
  induction d with
  | nil => simp [dset, dget, hkk2]
  | cons p rest ih =>
    by_cases hp : p.1 = k
    · simp [dset, dget, hp, hkk2]
    · by_cases hp2 : p.1 = k2 <;> simp [dset, dget, hp, hp2, ih, h]

theorem dtruthy_congr {d1 d2 : PyDict} {k : String}
    (h : dget d1 k = dget d2 k) : dtruthy d1 k = dtruthy d2 k := by
  unfold dtruthy
  rw [h]

theorem mergeStep_preserve (m : PyDict) (kv : String × PyVal) (k : String)
    (h : k ≠ kv.1) : dget (mergeStep m kv) k = dget m k := by
  unfold mergeStep
  split_ifs with hc
  · exact dget_dset_ne _ _ _ _ h
  · rfl

theorem mergeStep_truthy (m : PyDict) (kv : String × PyVal) (k : String)
    (h : dtruthy m k = true) : dget (mergeStep m kv) k = dget m k := by
  by_cases hk : k = kv.1
  · unfold mergeStep
    rw [← hk, h]
    simp
  · exact mergeStep_preserve m kv k hk

theorem foldl_mergeStep_truthy (items : List (String × PyVal)) (m : PyDict)
    (k : String) (h : dtruthy m k = true) :
    dget (items.foldl mergeStep m) k = dget m k := by
  induction items generalizing m with
  | nil => rfl
  | cons kv rest ih =>
    have h1 : dget (mergeStep m kv) k = dget m k := mergeStep_truthy m kv k h
    have h2 : dtruthy (mergeStep m kv) k = true := (dtruthy_congr h1).trans h
    calc dget ((kv :: rest).foldl mergeStep m) k
        = dget (rest.foldl mergeStep (mergeStep m kv)) k := rfl
      _ = dget (mergeStep m kv) k := ih (mergeStep m kv) h2
      _ = dget m k := h1

theorem foldl_mergeStep_preserve (items : List (String × PyVal)) (m : PyDict)
    (k : String) (h : ∀ kv ∈ items, k ≠ kv.1) :
    dget (items.foldl mergeStep m) k = dget m k := by
  induction items generalizing m with
  | nil => rfl
  | cons kv rest ih =>
    have h1 : dget (mergeStep m kv) k = dget m k :=
      mergeStep_preserve m kv k (h kv (by simp))
    calc dget ((kv :: rest).foldl mergeStep m) k
        = dget (rest.foldl mergeStep (mergeStep m kv)) k := rfl
      _ = dget (mergeStep m kv) k :=
          ih (mergeStep m kv) (fun p hp => h p (List.mem_cons_of_mem kv hp))
      _ = dget m k := h1

theorem foldl_mergeStep_pointwise (items : List (String × PyVal)) (m : PyDict)
    (k : String) (hnd : (items.map Prod.fst).Nodup) :
    dget (items.foldl mergeStep m) k =
      match dget items k with
      | some v => if v.truthy && !(dtruthy m k) then some v else dget m k
      | none => dget m k := by
  induction items generalizing m with
  | nil => simp [dget]
  | cons kv rest ih =>
    rw [List.map_cons, List.nodup_cons] at hnd
    by_cases hk : kv.1 = k
    · have hnotin : ∀ p ∈ rest, k ≠ p.1 := by
        intro p hp hkp
        exact hnd.1 (hk ▸ hkp ▸ List.mem_map_of_mem Prod.fst hp)
      have hpres : dget (rest.foldl mergeStep (mergeStep m kv)) k
          = dget (mergeStep m kv) k :=
        foldl_mergeStep_preserve rest (mergeStep m kv) k hnotin
      have hhead : dget (kv :: rest) k = some kv.2 := by
        simp [dget, hk]
      rw [hhead]
      calc dget ((kv :: rest).foldl mergeStep m) k
          = dget (rest.foldl mergeStep (mergeStep m kv)) k := rfl
        _ = dget (mergeStep m kv) k := hpres
        _ = if kv.2.truthy && !(dtruthy m k) then some kv.2 else dget m k := by
            unfold mergeStep
            rw [hk]
            split_ifs with hc
            · exact dget_dset_self m k kv.2
            · rfl
    · have hpres : dget (mergeStep m kv) k = dget m k :=
        mergeStep_preserve m kv k (fun hh => hk hh.symm)
      have hdt : dtruthy (mergeStep m kv) k = dtruthy m k := dtruthy_congr hpres
      have hhead : dget (kv :: rest) k = dget rest k := by
        simp [dget, hk]
      rw [hhead]
      calc dget ((kv :: rest).foldl mergeStep m) k
          = dget (rest.foldl mergeStep (mergeStep m kv)) k := rfl
        _ = _ := by
            rw [ih (mergeStep m kv) hnd.2, hdt, hpres]

theorem listMeta_wp_false (it : JDItem) :
    dtruthy it.listMeta "website_present" = false := by
  rcases it with ⟨⟨n, a, r, rv, c⟩, det⟩
  simp [JDItem.listMeta, extract_metadata_from_list_result, dtruthy, dget, PyVal.truthy]

theorem detailMeta_keys_nodup (it : JDItem) :
    (it.detailMeta.map Prod.fst).Nodup := by
  rcases it with ⟨la, _ | d⟩
  · simp [JDItem.detailMeta]
  · simp [JDItem.detailMeta, extract_detail_page_result]


/-- C5: in the list+detail merge of the enriched JustDial scraper, every
field that is truthy (non-empty) in the list-page metadata keeps its
list-page value; any field whose merged value differs from the list value is
either the recomputed `website_present` flag or was empty in the list
metadata, non-empty in the detail metadata, and received the detail value;
and the final `website_present` always equals the truthiness of the merged
`website` field. -/
theorem C5_list_detail_merge_frame (it : JDItem) (k : String) :
    (dtruthy it.listMeta k = true →
        dget (mergeListDetail it.listMeta it.detailMeta) k = dget it.listMeta k)
    ∧ (dget (mergeListDetail it.listMeta it.detailMeta) k ≠ dget it.listMeta k →
        k = "website_present"
        ∨ (dtruthy it.listMeta k = false ∧ dtruthy it.detailMeta k = true
           ∧ dget (mergeListDetail it.listMeta it.detailMeta) k = dget it.detailMeta k))
    ∧ dget (mergeListDetail it.listMeta it.detailMeta) "website_present"
        = some (.bool (dtruthy (mergeListDetail it.listMeta it.detailMeta) "website")) := by
  refine ⟨?_, ?_, ?_⟩
  · intro ht
    by_cases hk : k = "website_present"
    · rw [hk] at ht
      rw [listMeta_wp_false it] at ht
      exact absurd ht (by simp)
    · unfold mergeListDetail
      rw [dget_dset_ne _ _ _ _ hk]
      exact foldl_mergeStep_truthy it.detailMeta it.listMeta k ht
  · intro hne
    by_cases hk : k = "website_present"
    · exact Or.inl hk
    · refine Or.inr ?_
      have hM : dget (mergeListDetail it.listMeta it.detailMeta) k
          = dget (it.detailMeta.foldl mergeStep it.listMeta) k := by
        unfold mergeListDetail
        exact dget_dset_ne _ _ _ _ hk
      have hpw := foldl_mergeStep_pointwise it.detailMeta it.listMeta k
        (detailMeta_keys_nodup it)
      cases hD : dget it.detailMeta k with
      | none =>
        rw [hpw, hD] at hM
        exact absurd hM hne
      | some v =>
        rw [hpw, hD] at hM
        have hM2 : dget (mergeListDetail it.listMeta it.detailMeta) k
            = if v.truthy && !(dtruthy it.listMeta k) then some v
              else dget it.listMeta k := hM
        by_cases hc : v.truthy && !(dtruthy it.listMeta k)
        · rw [if_pos hc] at hM2
          rcases Bool.and_eq_true_iff.mp hc with ⟨hv, hnl⟩
          refine ⟨by simpa using hnl, ?_, hM2⟩
          unfold dtruthy
          rw [hD]
          exact hv
        · rw [if_neg hc] at hM2
          exact absurd hM2 hne
  · unfold mergeListDetail
    have hwweb : dget
        (dset (it.detailMeta.foldl mergeStep it.listMeta) "website_present"
          (.bool (dtruthy (it.detailMeta.foldl mergeStep it.listMeta) "website")))
        "website"
        = dget (it.detailMeta.foldl mergeStep it.listMeta) "website" :=
      dget_dset_ne _ _ _ _ (by decide)
    rw [dget_dset_self]
    rw [dtruthy_congr hwweb]

/-- Witness for C5 at a concrete listing: the list-page name `"Cafe"` is
truthy, so the merged record keeps it, even though a detail page is merged
in. -/
theorem C5_list_detail_merge_frame_witness :
    dget (mergeListDetail
        (JDItem.mk ⟨"Cafe", "Addr", "4.2", "10", "Coffee"⟩
          (some ⟨"123", "", false, "http://x", "", "", "", "", "", "", "", "", ""⟩)).listMeta
        (JDItem.mk ⟨"Cafe", "Addr", "4.2", "10", "Coffee"⟩
          (some ⟨"123", "", false, "http://x", "", "", "", "", "", "", "", "", ""⟩)).detailMeta)
      "name" = some (.str "Cafe") := by
  have h := (C5_list_detail_merge_frame
    (JDItem.mk ⟨"Cafe", "Addr", "4.2", "10", "Coffee"⟩
      (some ⟨"123", "", false, "http://x", "", "", "", "", "", "", "", "", ""⟩)) "name").1
    (by decide)
  rw [h]
  decide


theorem recName_merge (it : JDItem) (h : dtruthy it.listMeta "name" = true) :
    recName (mergeListDetail it.listMeta it.detailMeta) = it.list_args.name := by
  have h1 : dget (mergeListDetail it.listMeta it.detailMeta) "name"
      = dget it.listMeta "name" := by
    unfold mergeListDetail
    rw [dget_dset_ne _ _ _ _ (by decide)]
    exact foldl_mergeStep_truthy _ _ _ h
  have h2 : dget it.listMeta "name" = some (.str it.list_args.name) := by
    rcases it with ⟨⟨n, a, r, rv, c⟩, det⟩
    simp [JDItem.listMeta, extract_metadata_from_list_result, dget]
  unfold recName
  rw [h1, h2]

theorem processBatch_inv (target : Nat) (items : List JDItem) (s : JDState)
    (hlen : s.results.length ≤ target)
    (hnd : (s.results.map (fun d => normName (recName d))).Nodup)
    (hsub : ∀ d ∈ s.results, normName (recName d) ∈ s.seen_names) :
    (processBatch target items s).results.length ≤ target
    ∧ ((processBatch target items s).results.map (fun d => normName (recName d))).Nodup
    ∧ ∀ d ∈ (processBatch target items s).results,
        normName (recName d) ∈ (processBatch target items s).seen_names := by
  induction items generalizing s with
  | nil => exact ⟨hlen, hnd, hsub⟩
  | cons it rest ih =>
    unfold processBatch
    by_cases h1 : s.results.length ≥ target
    · rw [if_pos h1]
      exact ⟨hlen, hnd, hsub⟩
    · rw [if_neg h1]
      by_cases h2 : (!(dtruthy it.listMeta "name")) = true
      · rw [if_pos h2]
        exact ih s hlen hnd hsub
      · rw [if_neg h2]
        by_cases h3 : normName it.list_args.name ∈ s.seen_names
        · rw [if_pos h3]
          exact ih s hlen hnd hsub
        · rw [if_neg h3]
          have hname : dtruthy it.listMeta "name" = true := by
            revert h2
            cases dtruthy it.listMeta "name" <;> simp
          have hrec : recName (mergeListDetail it.listMeta it.detailMeta)
              = it.list_args.name := recName_merge it hname
          apply ih
          · simp only [List.length_append, List.length_cons, List.length_nil]
            omega
          · rw [List.map_append]
            simp only [List.map_cons, List.map_nil, hrec]
            rw [List.nodup_append]
            refine ⟨hnd, List.nodup_singleton _, ?_⟩
            intro a ha hb
            simp only [List.mem_singleton] at hb
            rcases List.mem_map.mp ha with ⟨d, hd, hda⟩
            exact h3 (hb ▸ hda ▸ hsub d hd)
          · intro d hd
            rcases List.mem_append.mp hd with hd | hd
            · exact List.mem_append_left _ (hsub d hd)
            · simp only [List.mem_singleton] at hd
              subst hd
              rw [hrec]
              exact List.mem_append_right _ (by simp)

theorem runLoop_count_le (env : JDEnv) (target : Nat) (fuel attempts : Nat)
    (s : JDState) : (runLoop env target fuel attempts s).2 ≤ fuel := by
  induction fuel generalizing attempts s with
  | zero => simp [runLoop]
  | succ n ih =>
    unfold runLoop
    by_cases h1 : s.results.length < target
    · rw [if_pos h1]
      by_cases h2 : (processBatch target (env.batch attempts) s).results.length ≥ target
      · rw [if_pos h2]
        omega
      · rw [if_neg h2]
        by_cases h3 : (processBatch target (env.batch attempts) s).seen_names.length
            = s.seen_names.length
        · rw [if_pos h3]
          by_cases h4 : env.load_more attempts = true
          · rw [if_pos h4]
            show (runLoop env target n (attempts + 1)
                (processBatch target (env.batch attempts) s)).2 + 1 ≤ n + 1
            have := ih (attempts + 1) (processBatch target (env.batch attempts) s)
            omega
          · rw [if_neg h4]
            omega
        · rw [if_neg h3]
          show (runLoop env target n (attempts + 1)
              (processBatch target (env.batch attempts) s)).2 + 1 ≤ n + 1
          have := ih (attempts + 1) (processBatch target (env.batch attempts) s)
          omega
    · rw [if_neg h1]
      omega

theorem runLoop_inv (env : JDEnv) (target : Nat) (fuel attempts : Nat) (s : JDState)
    (hlen : s.results.length ≤ target)
    (hnd : (s.results.map (fun d => normName (recName d))).Nodup)
    (hsub : ∀ d ∈ s.results, normName (recName d) ∈ s.seen_names) :
    (runLoop env target fuel attempts s).1.results.length ≤ target
    ∧ (((runLoop env target fuel attempts s).1.results.map
        (fun d => normName (recName d))).Nodup)
    ∧ ∀ d ∈ (runLoop env target fuel attempts s).1.results,
        normName (recName d) ∈ (runLoop env target fuel attempts s).1.seen_names := by
  induction fuel generalizing attempts s with
  | zero => exact ⟨hlen, hnd, hsub⟩
  | succ n ih =>
    have hb := processBatch_inv target (env.batch attempts) s hlen hnd hsub
    unfold runLoop
    by_cases h1 : s.results.length < target
    · rw [if_pos h1]
      by_cases h2 : (processBatch target (env.batch attempts) s).results.length ≥ target
      · rw [if_pos h2]
        exact hb
      · rw [if_neg h2]
        by_cases h3 : (processBatch target (env.batch attempts) s).seen_names.length
            = s.seen_names.length
        · rw [if_pos h3]
          by_cases h4 : env.load_more attempts = true
          · rw [if_pos h4]
            exact ih (attempts + 1) _ hb.1 hb.2.1 hb.2.2
          · rw [if_neg h4]
            exact hb
        · rw [if_neg h3]
          exact ih (attempts + 1) _ hb.1 hb.2.1 hb.2.2
    · rw [if_neg h1]
      exact ⟨hlen, hnd, hsub⟩

/-- C6: for every environment (hence every url) and every target, `run`
terminates with at most `max_attempts = 20` outer-loop iterations, returns
at most `target` records, and the returned records have pairwise-distinct
normalised (stripped, lower-cased) names — a listing whose normalised name
was already seen is never appended. -/
theorem C6_run_bounded_and_distinct (env : JDEnv) (target : Nat) :
    (JD_run env target).2 ≤ 20
    ∧ (JD_run env target).1.length ≤ target
    ∧ ((JD_run env target).1.map (fun d => normName (recName d))).Nodup := by
  unfold JD_run
  by_cases h : (!env.initial_fetch_ok) = true
  · rw [if_pos h]
    simp
  · rw [if_neg h]
    have hc := runLoop_count_le env target 20 0 ⟨[], []⟩
    have hi := runLoop_inv env target 20 0 ⟨[], []⟩ (by simp) (by simp) (by simp)
    exact ⟨hc, hi.1, hi.2.1⟩


theorem subperm_append {α : Type} {l₁ l₂ r₁ r₂ : List α}
    (h1 : l₁.Subperm l₂) (h2 : r₁.Subperm r₂) :
    (l₁ ++ r₁).Subperm (l₂ ++ r₂) := by
  rcases h1 with ⟨u, hu, hsu⟩
  rcases h2 with ⟨v, hv, hsv⟩
  exact ⟨u ++ v, hu.append hv, hsu.append hsv⟩

theorem dropDupAux_sublist {κ : Type} [DecidableEq κ] (key : PdRow → κ)
    (l : List PdRow) (seen : List κ) :
    (dropDupAux key l seen).Sublist l := by
  induction l generalizing seen with
  | nil => simp [dropDupAux]
  | cons r rest ih =>
    unfold dropDupAux
    by_cases h : key r ∈ seen
    · rw [if_pos h]
      exact (ih seen).cons r
    · rw [if_neg h]
      exact (ih (key r :: seen)).cons₂ r

theorem dropDupAux_keys {κ : Type} [DecidableEq κ] (key : PdRow → κ)
    (l : List PdRow) (seen : List κ) :
    ((dropDupAux key l seen).map key).Nodup
    ∧ ∀ r ∈ dropDupAux key l seen, key r ∉ seen := by
  induction l generalizing seen with
  | nil => simp [dropDupAux]
  | cons r rest ih =>
    unfold dropDupAux
    by_cases h : key r ∈ seen
    · rw [if_pos h]
      exact ih seen
    · rw [if_neg h]
      obtain ⟨ihn, ihs⟩ := ih (key r :: seen)
      refine ⟨?_, ?_⟩
      · rw [List.map_cons, List.nodup_cons]
        refine ⟨?_, ihn⟩
        intro hmem
        rcases List.mem_map.mp hmem with ⟨d, hd, hdk⟩
        exact ihs d hd (hdk ▸ List.mem_cons_self _ _)
      · intro d hd
        rcases List.mem_cons.mp hd with hd | hd
        · subst hd
          exact h
        · intro hds
          exact ihs d hd (List.mem_cons_of_mem _ hds)

theorem filter_key_len_le_one {κ : Type} [DecidableEq κ] (key : PdRow → κ)
    (l : List PdRow) (h : (l.map key).Nodup) (k : κ) :
    (l.filter (fun r => decide (key r = k))).length ≤ 1 := by
  induction l with
  | nil => simp
  | cons r rest ih =>
    rw [List.map_cons, List.nodup_cons] at h
    by_cases hk : key r = k
    · have hrest : rest.filter (fun r => decide (key r = k)) = [] := by
        rw [List.filter_eq_nil_iff]
        intro a ha hpa
        have h1 : key a = key r := (of_decide_eq_true hpa).trans hk.symm
        exact h.1 (h1 ▸ List.mem_map_of_mem key ha)
      simp [List.filter_cons, hk, hrest]
    · simp only [List.filter_cons, decide_eq_true_eq, hk, if_false, ite_false]
      exact ih h.2

theorem dedupStep_subperm {κ : Type} [DecidableEq κ] (ls : PdRow → PdRow → Prop)
    [DecidableRel ls] (guard : PdRow → Bool) (key : PdRow → κ)
    (rows : List PdRow) : (dedupStep ls guard key rows).Subperm rows := by
  unfold dedupStep drop_duplicates_first
  have h1 : (dropDupAux key (List.insertionSort ls (rows.filter guard)) []).Subperm
      (rows.filter guard) :=
    ((dropDupAux_sublist key _ []).subperm).trans
      ((List.perm_insertionSort ls _).subperm)
  have h2 := subperm_append h1 (List.Subperm.refl (rows.filter (fun r => !(guard r))))
  exact h2.trans ((List.filter_append_perm guard rows).subperm)

theorem dedupStep_key_count {κ : Type} [DecidableEq κ] (ls : PdRow → PdRow → Prop)
    [DecidableRel ls] (guard : PdRow → Bool) (key : PdRow → κ)
    (rows : List PdRow) (k : κ) (hk : ∀ r, key r = k → guard r = true) :
    ((dedupStep ls guard key rows).filter
      (fun r => decide (key r = k))).length ≤ 1 := by
  unfold dedupStep drop_duplicates_first
  rw [List.filter_append, List.length_append]
  have hA : ((dropDupAux key (List.insertionSort ls (rows.filter guard)) []).filter
      (fun r => decide (key r = k))).length ≤ 1 :=
    filter_key_len_le_one key _ (dropDupAux_keys key _ []).1 k
  have hB : (((rows.filter (fun r => !(guard r))).filter
      (fun r => decide (key r = k))).length = 0) := by
    rw [List.length_eq_zero, List.filter_eq_nil_iff]
    intro a ha hpa
    have h1 : guard a = true := hk a (of_decide_eq_true hpa)
    have h2 := List.of_mem_filter ha
    rw [h1] at h2
    simp at h2
  omega

theorem subperm_filter_length_le {α : Type} (p : α → Bool) {l₁ l₂ : List α}
    (h : l₁.Subperm l₂) : (l₁.filter p).length ≤ (l₂.filter p).length := by
  rw [← List.countP_eq_length_filter, ← List.countP_eq_length_filter]
  exact h.countP_le p

theorem rows_nil_of_wf (d : PdFrame) (hw : d.columns = [] → d.rows = [])
    (he : d.isEmpty = true) : d.rows = [] := by
  unfold PdFrame.isEmpty at he
  rcases Bool.or_eq_true_iff.mp he with h | h
  · exact List.isEmpty_iff.mp h
  · exact hw (List.isEmpty_iff.mp h)


/-- C8: `merge_and_deduplicate` treats the empty DataFrame as an identity:
with a non-empty `business_df` and empty `influencer_df` it returns
`business_df` unchanged, symmetrically for the other side, and with both
inputs empty it returns an empty DataFrame whose columns are exactly
`UNIFIED_SCHEMA`. -/
theorem C8_merge_empty_identity (b i : PdFrame) :
    (b.isEmpty = false → i.isEmpty = true → merge_and_deduplicate b i = b)
    ∧ (b.isEmpty = true → i.isEmpty = false → merge_and_deduplicate b i = i)
    ∧ (b.isEmpty = true → i.isEmpty = true →
        merge_and_deduplicate b i = ⟨UNIFIED_SCHEMA, []⟩) := by
  refine ⟨?_, ?_, ?_⟩ <;> intro h1 h2 <;> unfold merge_and_deduplicate <;>
    simp [h1, h2]

/-- Witness for C8: a one-row influencer frame is returned unchanged when
the business frame is empty. -/
theorem C8_merge_empty_identity_witness :
    merge_and_deduplicate ⟨UNIFIED_SCHEMA, []⟩
        ⟨UNIFIED_SCHEMA, [fun _ => none]⟩
      = ⟨UNIFIED_SCHEMA, [fun _ => none]⟩ :=
  (C8_merge_empty_identity ⟨UNIFIED_SCHEMA, []⟩
    ⟨UNIFIED_SCHEMA, [fun _ => none]⟩).2.1 rfl rfl

/-- C4 counterexample: when `business_df` is empty, `merge_and_deduplicate`
returns `influencer_df` without any deduplication, so a duplicated non-null,
non-empty website value survives in two rows, contradicting the claimed
at-most-one-row guarantee for every input pair. -/
theorem C4_dedup_counterexample :
    ((merge_and_deduplicate ⟨UNIFIED_SCHEMA, []⟩
        ⟨UNIFIED_SCHEMA,
         [fun c => if c = "website" then some "http://dup.com" else none,
          fun c => if c = "website" then some "http://dup.com" else none]⟩).rows.filter
      (fun r => decide (r "website" = some "http://dup.com"))).length = 2 := by
  rfl


/-- C4 amended: every deduplication step only removes rows and only among
rows whose dedup key is present.  When both inputs are non-empty (the only
case in which `merge_and_deduplicate` deduplicates at all; an empty side
short-circuits and returns the other frame unchanged), the output contains
each non-null, non-empty website value in at most one row; in every case it
retains every input row whose website is null or empty and returns only
input rows.  The `load_and_map_files` dedup pipeline leaves each non-null
website, each non-null phone, and each fully non-null (name, city) pair in
at most one row, and every output row originates from the input. -/
theorem C4_dedup_key_uniqueness_amended :
    (∀ b i : PdFrame,
      (b.columns = [] → b.rows = []) → (i.columns = [] → i.rows = []) →
      (b.isEmpty = false → i.isEmpty = false →
        ∀ w : String, w ≠ "" →
          ((merge_and_deduplicate b i).rows.filter
            (fun r => decide (r "website" = some w))).length ≤ 1)
      ∧ ((merge_and_deduplicate b i).rows.filter
            (fun r => !(hasWebsiteCell r))).Perm
          ((b.rows ++ i.rows).filter (fun r => !(hasWebsiteCell r)))
      ∧ ∀ r ∈ (merge_and_deduplicate b i).rows, r ∈ b.rows ++ i.rows)
    ∧ (∀ rows : List PdRow,
      (∀ w : String,
        ((load_and_map_dedup rows).filter
          (fun r => decide (r "website" = some w))).length ≤ 1)
      ∧ (∀ p : String,
        ((load_and_map_dedup rows).filter
          (fun r => decide (r "phone" = some p))).length ≤ 1)
      ∧ (∀ nm ct : String,
        ((load_and_map_dedup rows).filter
          (fun r => decide ((r "name", r "city") = (some nm, some ct)))).length ≤ 1)
      ∧ ∀ r ∈ load_and_map_dedup rows, r ∈ rows) := by
  constructor
  · intro b i hwb hwi
    refine ⟨?_, ?_, ?_⟩
    · intro hbe hie w hw
      simp only [merge_and_deduplicate, hbe, hie, Bool.false_and, Bool.false_eq_true,
        if_false, ite_false]
      rw [List.filter_append, List.length_append]
      have hA : ((drop_duplicates_first (fun r => r "website")
          ((List.insertionSort mergeAllLeadsLe (b.rows ++ i.rows)).filter
            hasWebsiteCell)).filter
          (fun r => decide (r "website" = some w))).length ≤ 1 :=
        filter_key_len_le_one (fun r => r "website") _
          (dropDupAux_keys (fun r => r "website") _ []).1 (some w)
      have hB : (((List.insertionSort mergeAllLeadsLe (b.rows ++ i.rows)).filter
          (fun r => !(hasWebsiteCell r))).filter
          (fun r => decide (r "website" = some w))).length = 0 := by
        rw [List.length_eq_zero, List.filter_eq_nil_iff]
        intro a ha hpa
        have h2 := List.of_mem_filter ha
        have h3 : hasWebsiteCell a = true := by
          unfold hasWebsiteCell
          rw [of_decide_eq_true hpa]
          simpa using hw
        rw [h3] at h2
        simp at h2
      exact le_trans (Nat.add_le_add hA (Nat.le_of_eq hB)) (by simp)
    · cases hbe : b.isEmpty <;> cases hie : i.isEmpty
      · simp only [merge_and_deduplicate, hbe, hie, Bool.false_and, Bool.false_eq_true,
          if_false, ite_false]
        rw [List.filter_append]
        have hd : ((drop_duplicates_first (fun r => r "website")
            ((List.insertionSort mergeAllLeadsLe (b.rows ++ i.rows)).filter
              hasWebsiteCell)).filter (fun r => !(hasWebsiteCell r))) = [] := by
          rw [List.filter_eq_nil_iff]
          intro a ha hpa
          have h1 : a ∈ (List.insertionSort mergeAllLeadsLe
              (b.rows ++ i.rows)).filter hasWebsiteCell :=
            (dropDupAux_sublist (fun r => r "website") _ []).subset ha
          have h2 := List.of_mem_filter h1
          rw [h2] at hpa
          simp at hpa
        have hw2 : (((List.insertionSort mergeAllLeadsLe (b.rows ++ i.rows)).filter
            (fun r => !(hasWebsiteCell r))).filter
            (fun r => !(hasWebsiteCell r)))
            = (List.insertionSort mergeAllLeadsLe (b.rows ++ i.rows)).filter
              (fun r => !(hasWebsiteCell r)) := by
          rw [List.filter_eq_self]
          intro a ha
          have h2 := List.of_mem_filter ha
          exact h2
        rw [hd, hw2, List.nil_append]
        exact (List.perm_insertionSort mergeAllLeadsLe (b.rows ++ i.rows)).filter _
      · have hb0 : i.rows = [] := rows_nil_of_wf i hwi hie
        simp only [merge_and_deduplicate, hbe, hie, Bool.and_true, Bool.false_eq_true,
          if_false, ite_false, ite_true, if_true]
        rw [hb0, List.append_nil]
      · have hb0 : b.rows = [] := rows_nil_of_wf b hwb hbe
        simp only [merge_and_deduplicate, hbe, hie, Bool.true_and, Bool.false_eq_true,
          if_false, ite_false, ite_true, if_true]
        rw [hb0, List.nil_append]
      · have hb0 : b.rows = [] := rows_nil_of_wf b hwb hbe
        have hi0 : i.rows = [] := rows_nil_of_wf i hwi hie
        simp only [merge_and_deduplicate, hbe, hie, Bool.true_and, ite_true, if_true]
        rw [hb0, hi0]
        simp
    · cases hbe : b.isEmpty <;> cases hie : i.isEmpty
      · intro r hr
        simp only [merge_and_deduplicate, hbe, hie, Bool.false_and, Bool.false_eq_true,
          if_false, ite_false] at hr
        rcases List.mem_append.mp hr with hr | hr
        · have h1 : r ∈ (List.insertionSort mergeAllLeadsLe
              (b.rows ++ i.rows)).filter hasWebsiteCell :=
            (dropDupAux_sublist (fun r => r "website") _ []).subset hr
          have h2 := List.mem_of_mem_filter h1
          exact (List.perm_insertionSort mergeAllLeadsLe (b.rows ++ i.rows)).mem_iff.mp h2
        · have h2 := List.mem_of_mem_filter hr
          exact (List.perm_insertionSort mergeAllLeadsLe (b.rows ++ i.rows)).mem_iff.mp h2
      · intro r hr
        simp only [merge_and_deduplicate, hbe, hie, Bool.and_true, Bool.false_eq_true,
          if_false, ite_false, ite_true, if_true] at hr
        exact List.mem_append_left _ hr
      · intro r hr
        simp only [merge_and_deduplicate, hbe, hie, Bool.true_and, Bool.false_eq_true,
          if_false, ite_false, ite_true, if_true] at hr
        exact List.mem_append_right _ hr
      · intro r hr
        simp only [merge_and_deduplicate, hbe, hie, Bool.true_and, ite_true, if_true] at hr
        simp at hr
  · intro rows
    have h1sub : (dedupStep siteSortLe (fun r => (r "website").isSome)
        (fun r => r "website") rows).Subperm rows :=
      dedupStep_subperm siteSortLe _ _ rows
    have h2sub : (dedupStep phoneSortLe (fun r => (r "phone").isSome)
        (fun r => r "phone")
        (dedupStep siteSortLe (fun r => (r "website").isSome)
          (fun r => r "website") rows)).Subperm
        (dedupStep siteSortLe (fun r => (r "website").isSome)
          (fun r => r "website") rows) :=
      dedupStep_subperm phoneSortLe _ _ _
    have h3sub : (load_and_map_dedup rows).Subperm
        (dedupStep phoneSortLe (fun r => (r "phone").isSome)
          (fun r => r "phone")
          (dedupStep siteSortLe (fun r => (r "website").isSome)
            (fun r => r "website") rows)) := by
      unfold load_and_map_dedup
      exact dedupStep_subperm nameCitySortLe _ _ _
    refine ⟨?_, ?_, ?_, ?_⟩
    · intro w
      have hbase : ((dedupStep siteSortLe (fun r => (r "website").isSome)
          (fun r => r "website") rows).filter
          (fun r => decide (r "website" = some w))).length ≤ 1 :=
        dedupStep_key_count siteSortLe _ _ rows (some w)
          (fun r hr => by rw [hr]; rfl)
      calc ((load_and_map_dedup rows).filter
            (fun r => decide (r "website" = some w))).length
          ≤ _ := subperm_filter_length_le _ h3sub
        _ ≤ _ := subperm_filter_length_le _ h2sub
        _ ≤ 1 := hbase
    · intro p
      have hbase : ((dedupStep phoneSortLe (fun r => (r "phone").isSome)
          (fun r => r "phone")
          (dedupStep siteSortLe (fun r => (r "website").isSome)
            (fun r => r "website") rows)).filter
          (fun r => decide (r "phone" = some p))).length ≤ 1 :=
        dedupStep_key_count phoneSortLe _ _ _ (some p)
          (fun r hr => by rw [hr]; rfl)
      calc ((load_and_map_dedup rows).filter
            (fun r => decide (r "phone" = some p))).length
          ≤ _ := subperm_filter_length_le _ h3sub
        _ ≤ 1 := hbase
    · intro nm ct
      have hk : ∀ r : PdRow, (r "name", r "city") = (some nm, some ct) →
          ((r "name").isSome && (r "city").isSome) = true := by
        intro r hr
        have h1 : r "name" = some nm := congrArg Prod.fst hr
        have h2 : r "city" = some ct := congrArg Prod.snd hr
        rw [h1, h2]
        rfl
      show ((dedupStep nameCitySortLe
          (fun r => (r "name").isSome && (r "city").isSome)
          (fun r => (r "name", r "city"))
          (dedupStep phoneSortLe (fun r => (r "phone").isSome)
            (fun r => r "phone")
            (dedupStep siteSortLe (fun r => (r "website").isSome)
              (fun r => r "website") rows))).filter
          (fun r => decide ((r "name", r "city") = (some nm, some ct)))).length ≤ 1
      exact dedupStep_key_count nameCitySortLe _ _ _ (some nm, some ct) hk
    · intro r hr
      exact ((h3sub.trans h2sub).trans h1sub).subset hr

/-- Witness for C4 at two concrete one-row frames sharing a website: the
deduplicated output keeps that website in at most one row. -/
theorem C4_dedup_key_uniqueness_amended_witness :
    ((merge_and_deduplicate
        ⟨UNIFIED_SCHEMA, [fun c => if c = "website" then some "http://dup.com" else none]⟩
        ⟨UNIFIED_SCHEMA, [fun c => if c = "website" then some "http://dup.com" else none]⟩).rows.filter
      (fun r => decide (r "website" = some "http://dup.com"))).length ≤ 1 :=
  ((C4_dedup_key_uniqueness_amended.1
      ⟨UNIFIED_SCHEMA, [fun c => if c = "website" then some "http://dup.com" else none]⟩
      ⟨UNIFIED_SCHEMA, [fun c => if c = "website" then some "http://dup.com" else none]⟩
      (fun h => absurd h (by decide)) (fun h => absurd h (by decide))).1
    rfl rfl "http://dup.com" (by decide))

end LeadGen
